import Mathlib

/-!
# Verification of the E-Rate data analyzer core

Shallow embedding of the pure core of `usac_school_query.py` and
`usac_year_query.py`: vendor canonicalization, cost extraction, the
exact-then-partial organization query protocol, school search
deduplication/sorting, hierarchical aggregation and report rendering.

Python strings are modelled as Lean `String` (a list of characters);
Python `float` costs are modelled as `ℚ`; the network is modelled by
passing each phase's response (`Except`-valued) as an argument.
-/

namespace ERate

/-! ## Python string primitives -/

/-- Whitespace characters recognised by Python's `str.strip()` (ASCII range). -/
def pyIsSpace (c : Char) : Bool :=
  c = ' ' ∨ c = '\t' ∨ c = '\n' ∨ c = '\x0d' ∨ c = '\x0b' ∨ c = '\x0c'

/-- Python `str.strip()`: drop leading and trailing whitespace. -/
def pyStrip (s : String) : String :=
  ⟨((s.data.dropWhile pyIsSpace).reverse.dropWhile pyIsSpace).reverse⟩

/-- Python `str.lower()` (ASCII case mapping, which covers all data in the tables). -/
def pyLower (s : String) : String :=
  ⟨s.data.map Char.toLower⟩

/-- Python `str.upper()` (ASCII case mapping). -/
def pyUpper (s : String) : String :=
  ⟨s.data.map Char.toUpper⟩

/-- Helper for `pyTitle`: the Boolean records whether the previous character
was alphabetic (i.e. whether we are inside a word). -/
def pyTitleAux : Bool → List Char → List Char
  | _, [] => []
  | prevAlpha, c :: cs =>
    (if c.isAlpha then (if prevAlpha then c.toLower else c.toUpper) else c)
      :: pyTitleAux c.isAlpha cs

/-- Python `str.title()`: capitalise the first letter of every word. -/
def pyTitle (s : String) : String :=
  ⟨pyTitleAux false s.data⟩

/-- `manufacturer_name.lower().strip()`, the normalisation both scripts apply
before alias lookup. -/
def pyNormName (s : String) : String :=
  pyStrip (pyLower s)

/-! ## Vendor taxonomy (`vendor_mappings` tables)

Copied from the `__init__` of `SchoolERateAnalyzer` (usac_school_query.py)
and `ERateDataProcessor` (usac_year_query.py).  The two tables differ:
the year table folds juniper into hp and has no separate juniper key. -/

def school_vendor_mappings : List (String × List String) :=
  [ ("cisco", ["cisco", "cisco systems", "meraki", "cisco meraki"]),
    ("hp", ["hp", "hewlett-packard", "hpe", "hewlett packard", "aruba",
            "aruba networks", "hewlett packard enterprise"]),
    ("juniper", ["juniper", "juniper networks"]),
    ("ubiquiti", ["ubiquiti", "ubnt", "ubiquiti networks"]),
    ("arista", ["arista", "arista networks"]),
    ("fortinet", ["fortinet", "fortigate"]),
    ("ruckus", ["ruckus", "ruckus wireless", "commscope ruckus"]),
    ("netgear", ["netgear"]),
    ("dell", ["dell", "dell emc", "dell technologies"]),
    ("extreme", ["extreme", "extreme networks"]),
    ("allied", ["allied", "allied telesis"]),
    ("adtran", ["adtran"]),
    ("sonicwall", ["sonicwall"]),
    ("watchguard", ["watchguard", "watch guard technologies"]),
    ("palo alto", ["palo alto", "palo alto networks"]) ]

def year_vendor_mappings : List (String × List String) :=
  [ ("cisco", ["cisco", "cisco systems", "meraki", "cisco meraki"]),
    ("hp", ["hp", "hewlett-packard", "hpe", "hewlett packard", "aruba",
            "aruba networks", "hewlett packard enterprise", "juniper",
            "juniper networks"]),
    ("ubiquiti", ["ubiquiti", "ubnt", "ubiquiti networks"]),
    ("arista", ["arista", "arista networks"]),
    ("fortinet", ["fortinet", "fortigate"]),
    ("ruckus", ["ruckus", "ruckus wireless", "commscope ruckus"]),
    ("netgear", ["netgear"]),
    ("dell", ["dell", "dell emc", "dell technologies"]),
    ("extreme", ["extreme", "extreme networks"]),
    ("allied", ["allied", "allied telesis"]),
    ("adtran", ["adtran"]),
    ("sonicwall", ["sonicwall"]),
    ("watchguard", ["watchguard", "watch guard technologies"]),
    ("palo alto", ["palo alto", "palo alto networks"]) ]

/-- The loop body of `get_standardized_vendor`: scan the table in order and
return `standard_name.title()` on the first entry whose (lowered) variant
list contains the normalised name. -/
def lookupVendor : List (String × List String) → String → Option String
  | [], _ => none
  | (std, variants) :: rest, n =>
    if n ∈ variants.map pyLower then some (pyTitle std) else lookupVendor rest n

/-- `get_standardized_vendor` (identical bodies in both scripts, modulo the
table): empty input returns `""`; otherwise the first table entry whose
variants contain `lower().strip()` of the input wins, and an unmapped name
falls through unchanged. -/
def get_standardized_vendor (table : List (String × List String)) (m : String) : String :=
  if m = "" then ""
  else (lookupVendor table (pyNormName m)).getD m

/-- The flat multiset of (lowered) aliases appearing in a table. -/
def allAliases (table : List (String × List String)) : List String :=
  table.flatMap (fun p => p.2.map pyLower)

/-- `is_target_vendor`: membership of the normalised name in the flat alias set. -/
def is_target_vendor (table : List (String × List String)) (m : String) : Bool :=
  if m = "" then false else pyNormName m ∈ allAliases table

/-! ## Cost extraction (`extract_cost_from_record`, and the identical inline
computation in `ERateDataProcessor.generate_summary`)

Raw records are modelled as association lists of string fields; Python
`float()` on finite decimal literals (optional surrounding whitespace, sign,
digits with at most one point, optional exponent) is modelled as a total
parser into `Option ℚ`, `none` standing for a raised `ValueError`. -/

/-- Value of a digit string. -/
def decVal (cs : List Char) : Nat :=
  cs.foldl (fun a c => 10 * a + (c.toNat - 48)) 0

/-- The syntactic shape of a finite Python float literal: sign, integer
digits, fraction digits, exponent sign and digits (empty digits meaning
exponent 0). -/
structure FloatLit where
  neg : Bool
  intd : List Char
  fracd : List Char
  expNeg : Bool
  expd : List Char
  deriving DecidableEq

/-- Lexing stage of Python `float()` on finite decimal literals: optional
surrounding whitespace, optional sign, digits with at most one point
(at least one digit overall), optional exponent part.  `none` models a
raised `ValueError`. -/
def pyFloatLex (s : String) : Option FloatLit :=
  let cs := ((s.data.dropWhile pyIsSpace).reverse.dropWhile pyIsSpace).reverse
  let neg : Bool := cs.head? = some '-'
  let cs := if cs.head? = some '-' ∨ cs.head? = some '+' then cs.tail else cs
  let intd := cs.takeWhile Char.isDigit
  let cs := cs.dropWhile Char.isDigit
  let hasDot : Bool := cs.head? = some '.'
  let fracd := if hasDot then cs.tail.takeWhile Char.isDigit else []
  let cs := if hasDot then cs.tail.dropWhile Char.isDigit else cs
  if intd.length + fracd.length = 0 then none
  else
    match cs with
    | [] => some ⟨neg, intd, fracd, false, []⟩
    | e :: rest =>
      if e = 'e' ∨ e = 'E' then
        let expNeg : Bool := rest.head? = some '-'
        let rest := if rest.head? = some '-' ∨ rest.head? = some '+' then rest.tail else rest
        let expd := rest.takeWhile Char.isDigit
        let rest := rest.dropWhile Char.isDigit
        if expd.length = 0 ∨ rest ≠ [] then none
        else some ⟨neg, intd, fracd, expNeg, expd⟩
      else none

/-- Numeric value of a lexed float literal. -/
def litVal (f : FloatLit) : ℚ :=
  (if f.neg then -1 else 1)
    * ((decVal f.intd : ℚ) + (decVal f.fracd : ℚ) / (10 : ℚ) ^ f.fracd.length)
    * (10 : ℚ) ^ (if f.expNeg then -(decVal f.expd : ℤ) else (decVal f.expd : ℤ))

/-- Model of Python `float()` on finite decimal literals. -/
def pyFloat (s : String) : Option ℚ :=
  (pyFloatLex s).map litVal

/-- A raw record: an association list from field name to string value. -/
def RawRecord : Type := List (String × String)

/-- Python `dict` lookup returning the first binding, if any. -/
def dictGet? : List (String × String) → String → Option String
  | [], _ => none
  | (k', v) :: rest, k => if k' = k then some v else dictGet? rest k

/-- The cost field both scripts read. -/
def costFieldKey : String := "pre_discount_extended_eligible_line_item_costs"

/-- `extract_cost_from_record`: `record.get(field, '0')`, then
`float(cost_field) if cost_field else 0` with any parse error coerced to 0. -/
def extract_cost_from_record (r : RawRecord) : ℚ :=
  let cf := (dictGet? r costFieldKey).getD "0"
  if cf = "" then 0 else (pyFloat cf).getD 0

/-! ## Organization-history fetch (`SchoolERateAnalyzer.fetch_data_for_year`)

The two HTTP requests are modelled by passing each phase's outcome as an
`Except` argument: `.error` models a raised `RequestException` (transport)
or `JSONDecodeError` (parse), `.ok` a successfully decoded record list.
The function returns the record list the Python function returns, paired
with whether the partial-match request was issued. -/

/-- A failure of one request phase. -/
inductive FetchErr where
  | transport
  | parse
  deriving DecidableEq

/-- `fetch_data_for_year`: issue the exact-match query; if it succeeds with
an empty record set, issue the partial-match query; any raised error is
caught by the `except` clauses, which return `[]` without issuing anything
further.  The `Bool` records whether the partial phase was issued. -/
def fetch_data_for_year {α : Type} (exact partialRes : Except FetchErr (List α)) :
    List α × Bool :=
  match exact with
  | .error _ => ([], false)
  | .ok d =>
    if d.isEmpty then
      match partialRes with
      | .error _ => ([], true)
      | .ok d2 => (d2, true)
    else (d, false)

/-! ## Normalized line items and hierarchical aggregation

`SRec` models a processed record of the organization-history workflow
(`filter_record` output: cost already coerced to `ℚ`); `YRec` models a
filtered record of the state/year workflow (`generate_summary` input: the
cost field still a raw optional string, parsed inline).

The Python loops update several independent dicts in one pass; each dict is
embedded as its own fold over the record list, with insertion-ordered
association lists standing for Python dicts. -/

structure SRec where
  standardized_vendor : String
  model_of_equipment : String
  form_471_product_name : String
  one_time_quantity : String
  application_number : String
  cost : ℚ
  deriving DecidableEq

structure YRec where
  standardized_vendor : String
  organization_name : String
  pre_discount : Option String
  model_of_equipment : String
  one_time_quantity : String
  form_471_product_name : String
  deriving DecidableEq

/-- The inline cost computation of `generate_summary` (same logic as
`extract_cost_from_record`). -/
def yCost (r : YRec) : ℚ :=
  let cf := r.pre_discount.getD "0"
  if cf = "" then 0 else (pyFloat cf).getD 0

/-- The per-item dict stored in `vendor_data[...]['items']` /
`school_vendor_items[...]`. -/
structure ItemInfo where
  model : String
  product_name : String
  quantity : String
  cost : ℚ
  app_number : String
  deriving DecidableEq

def itemOfS (r : SRec) : ItemInfo :=
  ⟨r.model_of_equipment, r.form_471_product_name, r.one_time_quantity, r.cost,
    r.application_number⟩

/-- The per-item dict of `generate_summary` (no application number there). -/
structure YItem where
  model : String
  quantity : String
  cost : ℚ
  product_name : String
  deriving DecidableEq

def itemOfY (r : YRec) : YItem :=
  ⟨r.model_of_equipment, r.one_time_quantity, yCost r, r.form_471_product_name⟩

/-- `d[k] = d.get(k, 0) + c` on an insertion-ordered dict. -/
def bumpQ : List (String × ℚ) → String → ℚ → List (String × ℚ)
  | [], k, c => [(k, c)]
  | (k', v) :: rest, k, c =>
    if k' = k then (k', v + c) :: rest else (k', v) :: bumpQ rest k c

/-- `d.get(k, 0)` on an insertion-ordered dict. -/
def qLookup : List (String × ℚ) → String → ℚ
  | [], _ => 0
  | (k', v) :: rest, k => if k' = k then v else qLookup rest k

/-- The update of the school report's `vendor_data[vendor]` defaultdict:
add to the running total and append the item. -/
def vdStep (m : List (String × ℚ × List ItemInfo)) (r : SRec) :
    List (String × ℚ × List ItemInfo) :=
  match m with
  | [] => [(r.standardized_vendor, r.cost, [itemOfS r])]
  | (v, t, its) :: rest =>
    if v = r.standardized_vendor then (v, t + r.cost, its ++ [itemOfS r]) :: rest
    else (v, t, its) :: vdStep rest r

/-- `vendor_data` of `generate_school_history_report` for one year's records. -/
def vendor_data (recs : List SRec) : List (String × ℚ × List ItemInfo) :=
  recs.foldl vdStep []

/-- Total stored under a vendor in `vendor_data` (0 if absent). -/
def vdTotal : List (String × ℚ × List ItemInfo) → String → ℚ
  | [], _ => 0
  | (v, t, _) :: rest, k => if v = k then t else vdTotal rest k

/-- `vendor_totals` of `generate_summary`. -/
def vendor_totals (recs : List YRec) : List (String × ℚ) :=
  recs.foldl (fun m r => bumpQ m r.standardized_vendor (yCost r)) []

/-- `vendor_counts` of `generate_summary`. -/
def vendor_counts (recs : List YRec) : List (String × ℕ) :=
  recs.foldl (fun m r =>
    let rec go : List (String × ℕ) → List (String × ℕ)
      | [] => [(r.standardized_vendor, 1)]
      | (k, n) :: rest =>
        if k = r.standardized_vendor then (k, n + 1) :: rest else (k, n) :: go rest
    go m) []

/-- Nested dict update for `school_vendor_totals[vendor][school] += cost`. -/
def bumpNested (m : List (String × List (String × ℚ))) (v s : String) (c : ℚ) :
    List (String × List (String × ℚ)) :=
  match m with
  | [] => [(v, bumpQ [] s c)]
  | (v', inner) :: rest =>
    if v' = v then (v', bumpQ inner s c) :: rest
    else (v', inner) :: bumpNested rest v s c

/-- Nested dict lookup with default 0. -/
def nLookup (m : List (String × List (String × ℚ))) (v s : String) : ℚ :=
  match m with
  | [] => 0
  | (v', inner) :: rest => if v' = v then qLookup inner s else nLookup rest v s

/-- `school_vendor_totals` of `generate_summary`. -/
def school_vendor_totals (recs : List YRec) : List (String × List (String × ℚ)) :=
  recs.foldl (fun m r => bumpNested m r.standardized_vendor r.organization_name (yCost r)) []

/-- Nested dict update for `school_vendor_items[vendor][school].append(item)`. -/
def bumpItems (m : List (String × List (String × List YItem))) (v s : String)
    (it : YItem) : List (String × List (String × List YItem)) :=
  match m with
  | [] => [(v, [(s, [it])])]
  | (v', inner) :: rest =>
    if v' = v then
      (v', (let rec go : List (String × List YItem) → List (String × List YItem)
        | [] => [(s, [it])]
        | (s', its) :: r2 => if s' = s then (s', its ++ [it]) :: r2 else (s', its) :: go r2
        go inner)) :: rest
    else (v', inner) :: bumpItems rest v s it

/-- `school_vendor_items` of `generate_summary`. -/
def school_vendor_items (recs : List YRec) :
    List (String × List (String × List YItem)) :=
  recs.foldl (fun m r =>
    bumpItems m r.standardized_vendor r.organization_name (itemOfY r)) []

/-- `total_funding` of `generate_summary` (running sum). -/
def total_funding (recs : List YRec) : ℚ :=
  recs.foldl (fun t r => t + yCost r) 0

/-! ### Characterisation of the aggregation folds -/

/-! ## Python string comparison (code-point lexicographic order) -/

/-- Python `s <= t` on character lists: lexicographic by code point. -/
def pyStrLeL : List Char → List Char → Bool
  | [], _ => true
  | _ :: _, [] => false
  | a :: as, b :: bs =>
    if a.toNat < b.toNat then true
    else if b.toNat < a.toNat then false
    else pyStrLeL as bs

/-- Python `s <= t` on strings. -/
def pyStrLe (s t : String) : Bool :=
  pyStrLeL s.data t.data

/-! ## Vendor ordering in the rendered reports (C5)

Both reports render vendors via Python
`sorted(vendor_data.items(), key=..., reverse=True)` over the total.
`sorted(..., reverse=True)` is a *stable* descending sort, which is exactly
`List.mergeSort` with the comparison `b.total ≤ a.total`. -/

/-- `sorted_vendors` of `generate_school_history_report`. -/
def sorted_vendors (recs : List SRec) : List (String × ℚ × List ItemInfo) :=
  (vendor_data recs).mergeSort (fun a b => decide (b.2.1 ≤ a.2.1))

/-- `sorted_vendors` of `generate_summary`. -/
def sorted_vendors_y (recs : List YRec) : List (String × ℚ) :=
  (vendor_totals recs).mergeSort (fun a b => decide (b.2 ≤ a.2))

/-! ## Model-label truncation (C7)

Labels are modelled as character lists (Python `len`/slicing are
character-based).  `truncate45` is the shared first step
(`model[:42] + "..." if len(model) > 45`); `renderLabel` is the
organization-history report's application-number prefixing logic; the
state/year report uses `truncate45` alone. -/

def truncate45 (m : List Char) : List Char :=
  if 45 < m.length then m.take 42 ++ ['.', '.', '.'] else m

/-- The `f"(App {app_number}) "` prefix string. -/
def appInfoOf (appNum : List Char) : List Char :=
  "(App ".data ++ appNum ++ ") ".data

/-- The drill-down label of `generate_school_history_report`: truncate the
model, then, when the model has no parenthetical of its own, prepend the
application-number prefix, re-truncating to the 45-character budget and
falling back to the bare truncated model when fewer than 10 usable
characters would remain. -/
def renderLabel (model appNum : List Char) : List Char :=
  let m := truncate45 model
  if '(' ∈ model ∧ ')' ∈ model then m
  else
    let app := appInfoOf appNum
    if 45 < (app ++ m).length then
      if 10 < (45 : ℤ) - app.length - 3 then
        app ++ m.take ((45 : ℤ) - (app.length : ℤ) - 3).toNat ++ ['.', '.', '.']
      else m.take 42 ++ ['.', '.', '.']
    else app ++ m

/-! ## Report rendering (C6, C9, C10)

Each printed money value is represented by the value together with the
format specification the f-string applies to it (`decimals` from `.Nf`,
`comma` from the thousands separator flag), read off the `print` calls.
Rows carry only the data of the claims; purely textual separators are
modelled by `blank`.  The school report is modelled for one year's records
(the multi-year report concatenates such blocks; the grand-total row uses
the same format). -/

structure Money where
  val : ℚ
  decimals : ℕ
  comma : Bool
  deriving DecidableEq

/-- `f"Qty {quantity}" if quantity and quantity != '0' else "Qty N/A"`. -/
def qtyDisplay (q : String) : String :=
  if q ≠ "" ∧ q ≠ "0" then "Qty " ++ q else "Qty N/A"

inductive SRow where
  | grandTotal (m : Money)
  | vendorLine (vendor : String) (m : Money)
  | itemRow (label : String) (qty : String) (m : Money)
  | sentinel (m : Money)
  | blank
  deriving DecidableEq

/-- The drill-down rows under one vendor of the organization-history report:
items with `cost >= sku_threshold` sorted by descending cost, or the
`(no single line items over ...)` sentinel when there are none. -/
def schoolSubRows (thr : ℚ) (items : List ItemInfo) : List SRow :=
  let above := items.filter (fun it => decide (thr ≤ it.cost))
  if above.isEmpty then [SRow.sentinel ⟨thr, 0, true⟩]
  else (above.mergeSort (fun a b => decide (b.cost ≤ a.cost))).map (fun it =>
    SRow.itemRow (String.mk (renderLabel it.model.data it.app_number.data))
      (qtyDisplay it.quantity) ⟨it.cost, 0, true⟩)

/-- One vendor group of the organization-history report: the vendor summary
line (`${total:,.0f}`), its drill-down rows, and the trailing blank line. -/
def schoolVendorRows (thr : ℚ) (e : String × ℚ × List ItemInfo) : List SRow :=
  SRow.vendorLine e.1 ⟨e.2.1, 0, true⟩ :: (schoolSubRows thr e.2.2 ++ [SRow.blank])

/-- The organization-history report for one year's processed records:
`Total Funding` (`${total:,.2f}`) followed by the vendor groups in rendering
order. -/
def schoolReportRows (recs : List SRec) (thr : ℚ) : List SRow :=
  SRow.grandTotal ⟨(recs.map SRec.cost).sum, 2, true⟩
    :: (sorted_vendors recs).flatMap (schoolVendorRows thr)

inductive YRow where
  | grandTotal (m : Money)
  | vendorLine (vendor : String) (m : Money) (pct : ℚ) (count : ℕ)
  | schoolLine (name : String) (m : Money)
  | skuRow (label : String) (qty : String) (m : Money)
  | noSchools (m : Money)
  | blank
  deriving DecidableEq

/-- `vendor_counts.get(vendor, 0)`. -/
def countFor : List (String × ℕ) → String → ℕ
  | [], _ => 0
  | (k, n) :: rest, v => if k = v then n else countFor rest v

/-- `school_vendor_totals[vendor]` (empty when absent). -/
def svtFor (recs : List YRec) (v : String) : List (String × ℚ) :=
  let rec go : List (String × List (String × ℚ)) → List (String × ℚ)
    | [] => []
    | (k, inner) :: rest => if k = v then inner else go rest
  go (school_vendor_totals recs)

/-- `school_vendor_items[vendor][school]` (empty when absent). -/
def sviFor (recs : List YRec) (v s : String) : List YItem :=
  let rec go2 : List (String × List YItem) → List YItem
    | [] => []
    | (k, its) :: rest => if k = s then its else go2 rest
  let rec go : List (String × List (String × List YItem)) → List YItem
    | [] => []
    | (k, inner) :: rest => if k = v then go2 inner else go rest
  go (school_vendor_items recs)

/-- `percentage = (total / total_funding * 100) if total_funding > 0 else 0`. -/
def pctOf (recs : List YRec) (t : ℚ) : ℚ :=
  if 0 < total_funding recs then t / total_funding recs * 100 else 0

/-- The schools of a vendor rendered in the state/year report: sorted by
descending total, kept when `school_total >= school_threshold`. -/
def shownSchools (recs : List YRec) (schoolThr : ℚ) (v : String) : List (String × ℚ) :=
  ((svtFor recs v).mergeSort (fun a b => decide (b.2 ≤ a.2))).filter
    (fun p => decide (schoolThr ≤ p.2))

/-- One school block of the state/year report: the school line
(`${school_total:>10,.0f}`), its SKU rows (`${cost:>10,.0f}`, labels via
`truncate45`), and a blank line only when at least one SKU was shown.
No placeholder row exists at this level. -/
def ySchoolBlock (recs : List YRec) (v : String) (skuThr : ℚ) (p : String × ℚ) :
    List YRow :=
  let skus := ((sviFor recs v p.1).mergeSort (fun a b => decide (b.cost ≤ a.cost))).filter
    (fun it => decide (skuThr ≤ it.cost))
  YRow.schoolLine p.1 ⟨p.2, 0, true⟩ ::
    (skus.map (fun it => YRow.skuRow (String.mk (truncate45 it.model.data))
      (qtyDisplay it.quantity) ⟨it.cost, 0, true⟩)
    ++ if skus.isEmpty then [] else [YRow.blank])

/-- One vendor block of the state/year report: the vendor summary line
(`${total:>13,.2f}` and the guarded percentage), its school blocks, the
`(No schools above ...)` sentinel when no school reached the threshold, and
the trailing blank line. -/
def yVendorBlock (recs : List YRec) (schoolThr skuThr : ℚ) (e : String × ℚ) :
    List YRow :=
  YRow.vendorLine e.1 ⟨e.2, 2, true⟩ (pctOf recs e.2) (countFor (vendor_counts recs) e.1)
    :: ((shownSchools recs schoolThr e.1).flatMap (ySchoolBlock recs e.1 skuThr)
      ++ (if (shownSchools recs schoolThr e.1).isEmpty
          then [YRow.noSchools ⟨schoolThr, 0, true⟩] else [])
      ++ [YRow.blank])

/-- The state/year summary: `Total Funding` (`${total_funding:,.2f}`)
followed by the vendor blocks in rendering order. -/
def generate_summary_rows (recs : List YRec) (schoolThr skuThr : ℚ) : List YRow :=
  YRow.grandTotal ⟨total_funding recs, 2, true⟩
    :: (sorted_vendors_y recs).flatMap (yVendorBlock recs schoolThr skuThr)

/-- The claim-shape check for C6 on the state/year report: every school
summary line is immediately followed by a drill-down SKU row (the code
prints SKU rows directly under the school line, and would print a
school-level placeholder there if one existed). -/
def yDrillOk : List YRow → Bool
  | [] => true
  | YRow.schoolLine _ _ :: rest =>
    (match rest with
     | YRow.skuRow _ _ _ :: _ => true
     | _ => false) && yDrillOk rest
  | _ :: rest => yDrillOk rest

/-! ## Money formats (C9) -/

/-- The claim's format rule: totals (grand, vendor) with comma and 2
decimals, per-line-item costs with comma and 0 decimals. -/
def sRowFmtClaim : SRow → Bool
  | .grandTotal m => (m.decimals == 2) && m.comma
  | .vendorLine _ m => (m.decimals == 2) && m.comma
  | .itemRow _ _ m => (m.decimals == 0) && m.comma
  | _ => true

/-- The formats the code actually applies in the organization-history
report: grand total `,.2f`; vendor totals `,.0f`; item costs `,.0f`;
thresholds `,.0f`. -/
def sRowFmt : SRow → Bool
  | .grandTotal m => (m.decimals == 2) && m.comma
  | .vendorLine _ m => (m.decimals == 0) && m.comma
  | .itemRow _ _ m => (m.decimals == 0) && m.comma
  | .sentinel m => (m.decimals == 0) && m.comma
  | .blank => true

/-- The formats of the state/year report: grand total and vendor totals
`,.2f`; organization totals, item costs and thresholds `,.0f`. -/
def yRowFmt : YRow → Bool
  | .grandTotal m => (m.decimals == 2) && m.comma
  | .vendorLine _ m _ _ => (m.decimals == 2) && m.comma
  | .schoolLine _ m => (m.decimals == 0) && m.comma
  | .skuRow _ _ m => (m.decimals == 0) && m.comma
  | .noSchools m => (m.decimals == 0) && m.comma
  | .blank => true

/-! ## Percentage guard (C10) -/

/-! ## Organization search (`SchoolERateAnalyzer.find_schools`, C8)

The response-processing part of `find_schools`: deduplicate by (stripped)
organization name into an insertion-ordered defaultdict, accumulating the
set of distinct funding years (modelled as an insertion-ordered
duplicate-free list, sorted before output exactly as `sorted(list(set))`
is) and the last-seen non-empty state; sort all results case-insensitively
by name (`key=lambda x: x[0].upper()`, a stable ascending sort); truncate
to `limit` afterwards.  Both dict accesses are guarded (`if org_state:`,
`if year:`), so a record whose stripped state and funding year are both
empty creates no entry. -/

structure FRec where
  organization_name : String
  state : String
  funding_year : String
  deriving DecidableEq

structure OrgInfo where
  state : String
  years : List String
  deriving DecidableEq

/-- `set.add` on the insertion-ordered list model of a Python set. -/
def addYear (ys : List String) (y : String) : List String :=
  if y ∈ ys then ys else ys ++ [y]

/-- The guarded access `org_data[org_name]['state'] = org_state` (executed
only when the stripped state is non-empty): the defaultdict creates the
entry — default state `''`, empty year set — on first access, then the
state is assigned. -/
def orgSetState (org st : String) : List (String × OrgInfo) → List (String × OrgInfo)
  | [] => [(org, ⟨st, []⟩)]
  | (k, info) :: rest =>
    if k = org then (k, ⟨st, info.years⟩) :: rest
    else (k, info) :: orgSetState org st rest

/-- The guarded access `org_data[org_name]['years'].add(year)` (executed
only when the funding year is non-empty): the defaultdict creates the entry
— default state `''` — on first access, then the year is added. -/
def orgAddYear (org y : String) : List (String × OrgInfo) → List (String × OrgInfo)
  | [] => [(org, ⟨"", [y]⟩)]
  | (k, info) :: rest =>
    if k = org then (k, ⟨info.state, addYear info.years y⟩) :: rest
    else (k, info) :: orgAddYear org y rest

/-- One loop iteration of `find_schools`: records whose stripped
organization name is empty are skipped, and the dict is touched only by the
two guarded accesses — a record whose stripped state and funding year are
both empty creates no entry. -/
def orgStep (m : List (String × OrgInfo)) (r : FRec) : List (String × OrgInfo) :=
  let org := pyStrip r.organization_name
  let st := pyStrip r.state
  let y := r.funding_year
  if org = "" then m
  else
    let m1 := if st = "" then m else orgSetState org st m
    if y = "" then m1 else orgAddYear org y m1

/-- The `org_data` dict after the loop. -/
def org_data (data : List FRec) : List (String × OrgInfo) :=
  data.foldl orgStep []

/-- The full sorted result list (before truncation): each organization with
its state and sorted year list, sorted case-insensitively by name. -/
def find_schools_full (data : List FRec) : List (String × String × List String) :=
  ((org_data data).map (fun p => (p.1, p.2.state, p.2.years.mergeSort pyStrLe))).mergeSort
    (fun a b => pyStrLe (pyUpper a.1) (pyUpper b.1))

/-- The value `find_schools` returns: the sorted results truncated to
`limit`. -/
def find_schools_results (data : List FRec) (limit : ℕ) :
    List (String × String × List String) :=
  (find_schools_full data).take limit

/-- First-match lookup in the `org_data` dict. -/
def orgLookup : List (String × OrgInfo) → String → Option OrgInfo
  | [], _ => none
  | (k, i) :: rest, n => if k = n then some i else orgLookup rest n

/-- State of an optional entry (`''` when absent, as the defaultdict
default). -/
def stOf : Option OrgInfo → String
  | none => ""
  | some i => i.state

/-- Years of an optional entry (empty when absent). -/
def ysOf : Option OrgInfo → List String
  | none => []
  | some i => i.years

/-- The effect of one record on the entry of organization `n`: the entry is
created (or updated) only through the two guarded accesses, i.e. only when
the record carries a non-empty stripped state or a non-empty funding
year. -/
def updOrg (n : String) (o : Option OrgInfo) (r : FRec) : Option OrgInfo :=
  let org := pyStrip r.organization_name
  let st := pyStrip r.state
  let y := r.funding_year
  if org = "" then o
  else if org = n then
    let o1 := if st = "" then o else some ⟨st, ysOf o⟩
    if y = "" then o1 else some ⟨stOf o1, addYear (ysOf o1) y⟩
  else o

/-! ## Theorems -/

theorem lookupVendor_isSome_of_mem {table : List (String × List String)} {n : String}
    (h : n ∈ allAliases table) : (lookupVendor table n).isSome := by
  induction table with
  | nil => simp [allAliases] at h
  | cons hd tl ih =>
    simp only [allAliases, List.flatMap_cons, List.mem_append] at h
    simp only [lookupVendor]
    by_cases hmem : n ∈ hd.2.map pyLower
    · simp [hmem]
    · rcases h with h | h
      · exact absurd h hmem
      · simpa [hmem] using ih h

theorem lookupVendor_eq_none_of_not_mem {table : List (String × List String)} {n : String}
    (h : n ∉ allAliases table) : lookupVendor table n = none := by
  induction table with
  | nil => rfl
  | cons hd tl ih =>
    simp only [allAliases, List.flatMap_cons, List.mem_append, not_or] at h
    simp only [lookupVendor, if_neg h.1]
    exact ih h.2

theorem get_standardized_vendor_eq_of_norm_mem
    {table : List (String × List String)} {s t : String}
    (hs : pyNormName s ∈ allAliases table)
    (hnil : ("" : String) ∉ allAliases table)
    (heq : pyNormName s = pyNormName t) :
    get_standardized_vendor table s = get_standardized_vendor table t := by
  have hsne : s ≠ "" := by
    intro h; subst h
    exact hnil (by simpa [pyNormName, pyLower, pyStrip] using hs)
  have htne : t ≠ "" := by
    intro h; subst h
    rw [heq] at hs
    exact hnil (by simpa [pyNormName, pyLower, pyStrip] using hs)
  obtain ⟨c, hc⟩ := Option.isSome_iff_exists.mp (lookupVendor_isSome_of_mem hs)
  rw [heq] at hc
  simp only [get_standardized_vendor, if_neg hsne, if_neg htne, heq, hc, Option.getD_some]

theorem get_standardized_vendor_of_not_mem
    {table : List (String × List String)} {s : String}
    (h : pyNormName s ∉ allAliases table) :
    get_standardized_vendor table s = if s = "" then "" else s := by
  by_cases hs : s = ""
  · simp [get_standardized_vendor, hs]
  · simp [get_standardized_vendor, hs, lookupVendor_eq_none_of_not_mem h]

/-- C1. For every alias listed in either vendor mapping table,
`get_standardized_vendor` is determined solely by the lower-cased,
whitespace-trimmed form of its input: any two inputs normalising to the same
listed alias canonicalize identically (hence every case/whitespace variant of
an alias yields the alias's canonical display name); matching is exact-alias
only — an input whose normalised form is not a listed alias passes through
unchanged (or `""` for empty input), even when it strictly contains an alias
as a substring (e.g. `"cisco systems inc"`). -/
theorem vendor_canonicalization_det_c1 :
    (∀ s t : String, pyNormName s ∈ allAliases school_vendor_mappings →
      pyNormName s = pyNormName t →
      get_standardized_vendor school_vendor_mappings s
        = get_standardized_vendor school_vendor_mappings t)
    ∧ (∀ s t : String, pyNormName s ∈ allAliases year_vendor_mappings →
      pyNormName s = pyNormName t →
      get_standardized_vendor year_vendor_mappings s
        = get_standardized_vendor year_vendor_mappings t)
    ∧ (∀ s : String, pyNormName s ∉ allAliases school_vendor_mappings →
      get_standardized_vendor school_vendor_mappings s = if s = "" then "" else s)
    ∧ (∀ s : String, pyNormName s ∉ allAliases year_vendor_mappings →
      get_standardized_vendor year_vendor_mappings s = if s = "" then "" else s)
    ∧ get_standardized_vendor school_vendor_mappings "  CISCO Meraki " = "Cisco"
    ∧ get_standardized_vendor school_vendor_mappings "cisco systems inc"
        = "cisco systems inc" := by
  refine ⟨?_, ?_, ?_, ?_, by decide, by decide⟩
  · intro s t hs heq
    exact get_standardized_vendor_eq_of_norm_mem hs (by decide) heq
  · intro s t hs heq
    exact get_standardized_vendor_eq_of_norm_mem hs (by decide) heq
  · intro s h
    exact get_standardized_vendor_of_not_mem h
  · intro s h
    exact get_standardized_vendor_of_not_mem h

/-- Witness for C1: concrete instantiations discharging each hypothesis. -/
theorem vendor_canonicalization_det_c1_witness :
    get_standardized_vendor school_vendor_mappings "CISCO MERAKI"
      = get_standardized_vendor school_vendor_mappings "  cisco meraki " ∧
    get_standardized_vendor year_vendor_mappings "JUNIPER"
      = get_standardized_vendor year_vendor_mappings " Juniper  " ∧
    get_standardized_vendor school_vendor_mappings "Brocade"
      = if ("Brocade" : String) = "" then "" else "Brocade" :=
  ⟨vendor_canonicalization_det_c1.1 "CISCO MERAKI" "  cisco meraki "
      (by decide) (by decide),
   vendor_canonicalization_det_c1.2.1 "JUNIPER" " Juniper  "
      (by decide) (by decide),
   vendor_canonicalization_det_c1.2.2.1 "Brocade" (by decide)⟩

theorem pyFloat_zero_lit : pyFloat "0" = some 0 := by
  have h : pyFloatLex "0" = some ⟨false, ['0'], [], false, []⟩ := by decide
  rw [pyFloat, h, Option.map_some']
  have hd : decVal ['0'] = 0 := by decide
  have hd2 : decVal ([] : List Char) = 0 := by decide
  simp [litVal, hd, hd2]

/-- C2. Cost extraction is total (it is a Lean function, never an error)
and returns 0 when the cost field is absent, empty, or fails to parse as a
number; when the field parses as a number, the parsed value is returned. -/
theorem cost_extraction_lenient_c2 (r : RawRecord) :
    (dictGet? r costFieldKey = none → extract_cost_from_record r = 0)
    ∧ (dictGet? r costFieldKey = some "" → extract_cost_from_record r = 0)
    ∧ (∀ s, dictGet? r costFieldKey = some s → pyFloat s = none →
        extract_cost_from_record r = 0)
    ∧ (∀ s v, dictGet? r costFieldKey = some s → s ≠ "" → pyFloat s = some v →
        extract_cost_from_record r = v) := by
  refine ⟨?_, ?_, ?_, ?_⟩
  · intro h
    simp [extract_cost_from_record, h, pyFloat_zero_lit]
  · intro h
    simp [extract_cost_from_record, h]
  · intro s h hp
    by_cases hs : s = ""
    · simp [extract_cost_from_record, h, hs]
    · simp [extract_cost_from_record, h, hs, hp]
  · intro s v h hs hp
    simp [extract_cost_from_record, h, hs, hp]

theorem pyFloat_na : pyFloat "N/A" = none := by
  have h : pyFloatLex "N/A" = none := by decide
  rw [pyFloat, h, Option.map_none']

theorem pyFloat_example : pyFloat "1234.5" = some (2469 / 2) := by
  have h : pyFloatLex "1234.5" = some ⟨false, ['1', '2', '3', '4'], ['5'], false, []⟩ := by
    decide
  rw [pyFloat, h, Option.map_some']
  have hd : decVal ['1', '2', '3', '4'] = 1234 := by decide
  have hd2 : decVal ['5'] = 5 := by decide
  have hd3 : decVal ([] : List Char) = 0 := by decide
  simp only [litVal, hd, hd2, hd3]
  norm_num

/-- Witness for C2: the four branches at concrete records. -/
theorem cost_extraction_lenient_c2_witness :
    extract_cost_from_record [("other_field", "7")] = 0
    ∧ extract_cost_from_record [(costFieldKey, "")] = 0
    ∧ extract_cost_from_record [(costFieldKey, "N/A")] = 0
    ∧ extract_cost_from_record [(costFieldKey, "1234.5")] = 2469 / 2 :=
  ⟨(cost_extraction_lenient_c2 [("other_field", "7")]).1 (by decide),
   (cost_extraction_lenient_c2 [(costFieldKey, "")]).2.1 (by decide),
   (cost_extraction_lenient_c2 [(costFieldKey, "N/A")]).2.2.1 "N/A" (by decide) pyFloat_na,
   (cost_extraction_lenient_c2 [(costFieldKey, "1234.5")]).2.2.2 "1234.5" (2469 / 2)
     (by decide) (by decide) pyFloat_example⟩

/-- C3. The partial (substring) query is issued iff the exact query
completed successfully and returned an empty record set; when the exact
phase returns records they are used as-is; an error in the exact phase
never triggers the partial phase. -/
theorem exact_then_partial_fallback_c3 {α : Type}
    (exact partialRes : Except FetchErr (List α)) :
    ((fetch_data_for_year exact partialRes).2 = true ↔ exact = .ok ([] : List α))
    ∧ (∀ d : List α, exact = .ok d → d ≠ [] → fetch_data_for_year exact partialRes = (d, false))
    ∧ (∀ e : FetchErr, exact = .error e →
        fetch_data_for_year exact partialRes = ([], false)) := by
  refine ⟨?_, ?_, ?_⟩
  · constructor
    · intro h
      match exact with
      | .error e => simp [fetch_data_for_year] at h
      | .ok d =>
        by_cases hd : d.isEmpty
        · rw [List.isEmpty_iff] at hd
          rw [hd]
        · simp [fetch_data_for_year, hd] at h
    · intro h
      subst h
      cases partialRes <;> simp [fetch_data_for_year]
  · intro d h hd
    subst h
    simp [fetch_data_for_year, List.isEmpty_iff, hd]
  · intro e h
    subst h
    rfl

/-- Witness for C3: a concrete exact-phase success with records, which are
returned as-is with no partial query. -/
theorem exact_then_partial_fallback_c3_witness :
    fetch_data_for_year (.ok [(5 : ℕ)]) (.ok [7]) = ([5], false) :=
  (exact_then_partial_fallback_c3 (.ok [(5 : ℕ)]) (.ok [7])).2.1 [5] rfl (by decide)

theorem qLookup_bumpQ (m : List (String × ℚ)) (k : String) (c : ℚ) (k' : String) :
    qLookup (bumpQ m k c) k' = qLookup m k' + (if k = k' then c else 0) := by
  induction m with
  | nil =>
    by_cases h : k = k' <;> simp [bumpQ, qLookup, h]
  | cons hd tl ih =>
    obtain ⟨a, b⟩ := hd
    by_cases hak : a = k
    · subst hak
      by_cases h : a = k' <;> simp [bumpQ, qLookup, h]
    · simp only [bumpQ, if_neg hak, qLookup]
      by_cases h : a = k'
      · subst h
        have hk : k ≠ a := fun he => hak he.symm
        simp [qLookup, hk]
      · simp [qLookup, h, ih]

theorem qLookup_foldl_bumpQ {α : Type} (key : α → String) (cost : α → ℚ)
    (l : List α) (m : List (String × ℚ)) (v : String) :
    qLookup (l.foldl (fun m r => bumpQ m (key r) (cost r)) m) v
      = qLookup m v + ((l.filter (fun r => key r = v)).map cost).sum := by
  induction l generalizing m with
  | nil => simp
  | cons r l ih =>
    simp only [List.foldl_cons, ih, qLookup_bumpQ]
    by_cases h : key r = v
    · simp [h]
      ring
    · simp [h]

theorem vdTotal_vdStep (m : List (String × ℚ × List ItemInfo)) (r : SRec) (v : String) :
    vdTotal (vdStep m r) v
      = vdTotal m v + (if r.standardized_vendor = v then r.cost else 0) := by
  induction m with
  | nil =>
    by_cases h : r.standardized_vendor = v <;> simp [vdStep, vdTotal, h]
  | cons hd tl ih =>
    obtain ⟨a, t, its⟩ := hd
    by_cases hak : a = r.standardized_vendor
    · subst hak
      by_cases h : r.standardized_vendor = v <;> simp [vdStep, vdTotal, h]
    · simp only [vdStep, if_neg hak, vdTotal]
      by_cases h : a = v
      · subst h
        have hk : r.standardized_vendor ≠ a := fun he => hak he.symm
        simp [vdTotal, hk]
      · simp [vdTotal, h, ih]

theorem vdTotal_foldl (l : List SRec) (m : List (String × ℚ × List ItemInfo)) (v : String) :
    vdTotal (l.foldl vdStep m) v
      = vdTotal m v
        + ((l.filter (fun r => r.standardized_vendor = v)).map SRec.cost).sum := by
  induction l generalizing m with
  | nil => simp
  | cons r l ih =>
    simp only [List.foldl_cons, ih, vdTotal_vdStep]
    by_cases h : r.standardized_vendor = v
    · simp [h]
      ring
    · simp [h]

theorem nLookup_bumpNested (m : List (String × List (String × ℚ)))
    (v s : String) (c : ℚ) (v' s' : String) :
    nLookup (bumpNested m v s c) v' s'
      = nLookup m v' s' + (if v = v' ∧ s = s' then c else 0) := by
  induction m with
  | nil =>
    by_cases hv : v = v'
    · subst hv
      by_cases hss : s = s' <;> simp [bumpNested, nLookup, qLookup_bumpQ, qLookup, hss]
    · have hne : ¬(v = v' ∧ s = s') := fun hc => hv hc.1
      simp [bumpNested, nLookup, hv, hne]
  | cons hd tl ih =>
    obtain ⟨a, inner⟩ := hd
    by_cases hav : a = v
    · subst hav
      by_cases h : a = v'
      · subst h
        simp [bumpNested, nLookup, qLookup_bumpQ]
      · have hne : ¬(a = v' ∧ s = s') := fun hc => h hc.1
        simp [bumpNested, nLookup, h, hne]
    · simp only [bumpNested, if_neg hav, nLookup]
      by_cases h : a = v'
      · subst h
        have hk : v ≠ a := fun he => hav he.symm
        have hne : ¬(v = a ∧ s = s') := fun hc => hk hc.1
        simp [nLookup, hne]
      · simp [nLookup, h, ih]

theorem nLookup_foldl (l : List YRec) (m : List (String × List (String × ℚ)))
    (v s : String) :
    nLookup (l.foldl (fun m r =>
        bumpNested m r.standardized_vendor r.organization_name (yCost r)) m) v s
      = nLookup m v s
        + ((l.filter (fun r =>
            r.standardized_vendor = v ∧ r.organization_name = s)).map yCost).sum := by
  induction l generalizing m with
  | nil => simp
  | cons r l ih =>
    simp only [List.foldl_cons, ih, nLookup_bumpNested]
    by_cases h : r.standardized_vendor = v ∧ r.organization_name = s
    · simp [h.1, h.2]
      ring
    · have : ¬(r.standardized_vendor = v ∧ r.organization_name = s) := h
      simp only [if_neg this]
      rw [List.filter_cons_of_neg (by simpa using this)]
      ring

theorem total_funding_eq_sum (l : List YRec) :
    total_funding l = (l.map yCost).sum := by
  have h : ∀ (a : ℚ), l.foldl (fun t r => t + yCost r) a = a + (l.map yCost).sum := by
    induction l with
    | nil => simp
    | cons r l ih =>
      intro a
      simp [ih]
      ring
  simpa using h 0

/-- C4. Aggregation is order-independent: permuting the records leaves
the total at every vendor node (organization-history report), at every
vendor and vendor→organization node (state/year report), and the grand
totals, unchanged. -/
theorem aggregation_order_independent_c4 (s1 s2 : List SRec) (y1 y2 : List YRec)
    (v org : String) (hs : s1.Perm s2) (hy : y1.Perm y2) :
    vdTotal (vendor_data s1) v = vdTotal (vendor_data s2) v
    ∧ (s1.map SRec.cost).sum = (s2.map SRec.cost).sum
    ∧ qLookup (vendor_totals y1) v = qLookup (vendor_totals y2) v
    ∧ nLookup (school_vendor_totals y1) v org = nLookup (school_vendor_totals y2) v org
    ∧ total_funding y1 = total_funding y2 := by
  refine ⟨?_, ?_, ?_, ?_, ?_⟩
  · simp only [vendor_data, vdTotal_foldl]
    exact congrArg _ (((hs.filter _).map _).sum_eq)
  · exact ((hs.map _).sum_eq)
  · simp only [vendor_totals, qLookup_foldl_bumpQ]
    exact congrArg _ (((hy.filter _).map _).sum_eq)
  · simp only [school_vendor_totals, nLookup_foldl]
    exact congrArg _ (((hy.filter _).map _).sum_eq)
  · simp only [total_funding_eq_sum]
    exact ((hy.map _).sum_eq)

/-- Witness for C4: a transposition of two concrete records. -/
theorem aggregation_order_independent_c4_witness :
    (vdTotal (vendor_data [⟨"Cisco", "m1", "p1", "1", "a1", 5⟩,
        ⟨"Hp", "m2", "p2", "2", "a2", 7⟩]) "Hp"
      = vdTotal (vendor_data [⟨"Hp", "m2", "p2", "2", "a2", 7⟩,
        ⟨"Cisco", "m1", "p1", "1", "a1", 5⟩]) "Hp")
    ∧ (([⟨"Cisco", "m1", "p1", "1", "a1", 5⟩,
        (⟨"Hp", "m2", "p2", "2", "a2", 7⟩ : SRec)].map SRec.cost).sum
      = ([⟨"Hp", "m2", "p2", "2", "a2", 7⟩,
        (⟨"Cisco", "m1", "p1", "1", "a1", 5⟩ : SRec)].map SRec.cost).sum)
    ∧ (qLookup (vendor_totals [⟨"Cisco", "OrgA", some "10", "m", "1", "p"⟩,
        ⟨"Hp", "OrgB", some "20", "m", "1", "p"⟩]) "Hp"
      = qLookup (vendor_totals [⟨"Hp", "OrgB", some "20", "m", "1", "p"⟩,
        ⟨"Cisco", "OrgA", some "10", "m", "1", "p"⟩]) "Hp")
    ∧ (nLookup (school_vendor_totals [⟨"Cisco", "OrgA", some "10", "m", "1", "p"⟩,
        ⟨"Hp", "OrgB", some "20", "m", "1", "p"⟩]) "Hp" "OrgB"
      = nLookup (school_vendor_totals [⟨"Hp", "OrgB", some "20", "m", "1", "p"⟩,
        ⟨"Cisco", "OrgA", some "10", "m", "1", "p"⟩]) "Hp" "OrgB")
    ∧ (total_funding [⟨"Cisco", "OrgA", some "10", "m", "1", "p"⟩,
        ⟨"Hp", "OrgB", some "20", "m", "1", "p"⟩]
      = total_funding [⟨"Hp", "OrgB", some "20", "m", "1", "p"⟩,
        ⟨"Cisco", "OrgA", some "10", "m", "1", "p"⟩]) :=
  aggregation_order_independent_c4
    [⟨"Cisco", "m1", "p1", "1", "a1", 5⟩, ⟨"Hp", "m2", "p2", "2", "a2", 7⟩]
    [⟨"Hp", "m2", "p2", "2", "a2", 7⟩, ⟨"Cisco", "m1", "p1", "1", "a1", 5⟩]
    [⟨"Cisco", "OrgA", some "10", "m", "1", "p"⟩, ⟨"Hp", "OrgB", some "20", "m", "1", "p"⟩]
    [⟨"Hp", "OrgB", some "20", "m", "1", "p"⟩, ⟨"Cisco", "OrgA", some "10", "m", "1", "p"⟩]
    "Hp" "OrgB"
    (List.Perm.swap _ _ _) (List.Perm.swap _ _ _)

theorem pyStrLeL_total : ∀ s t : List Char, pyStrLeL s t || pyStrLeL t s := by
  intro s
  induction s with
  | nil => intro t; simp [pyStrLeL]
  | cons a as ih =>
    intro t
    match t with
    | [] => simp [pyStrLeL]
    | b :: bs =>
      by_cases hab : a.toNat < b.toNat
      · simp [pyStrLeL, hab]
      · by_cases hba : b.toNat < a.toNat
        · simp [pyStrLeL, hab, hba]
        · simpa [pyStrLeL, hab, hba] using ih bs

theorem pyStrLeL_trans : ∀ s t u : List Char,
    pyStrLeL s t → pyStrLeL t u → pyStrLeL s u := by
  intro s
  induction s with
  | nil => intro t u _ _; simp [pyStrLeL]
  | cons a as ih =>
    intro t u hst htu
    match t, u with
    | [], _ => simp [pyStrLeL] at hst
    | _ :: _, [] => simp [pyStrLeL] at htu
    | b :: bs, c :: cs =>
      simp only [pyStrLeL] at hst htu ⊢
      by_cases hab : a.toNat < b.toNat
      · by_cases hbc : b.toNat < c.toNat
        · simp [Nat.lt_trans hab hbc]
        · by_cases hcb : c.toNat < b.toNat
          · simp [hbc, hcb] at htu
          · have hbc' : b.toNat = c.toNat :=
              Nat.le_antisymm (Nat.le_of_not_lt hcb) (Nat.le_of_not_lt hbc)
            simp [hbc' ▸ hab]
      · by_cases hba : b.toNat < a.toNat
        · simp [hab, hba] at hst
        · have hab' : a.toNat = b.toNat :=
            Nat.le_antisymm (Nat.le_of_not_lt hba) (Nat.le_of_not_lt hab)
          by_cases hbc : b.toNat < c.toNat
          · simp [hab' ▸ hbc]
          · by_cases hcb : c.toNat < b.toNat
            · simp [hbc, hcb] at htu
            · have hbc' : b.toNat = c.toNat :=
                Nat.le_antisymm (Nat.le_of_not_lt hcb) (Nat.le_of_not_lt hbc)
              have hac : ¬ a.toNat < c.toNat := by omega
              have hca : ¬ c.toNat < a.toNat := by omega
              simp only [hab, hba, if_false, if_neg hab, if_neg hba] at hst
              simp only [hbc, hcb, if_neg hbc, if_neg hcb] at htu
              simp only [if_neg hac, if_neg hca]
              exact ih bs cs hst htu

theorem mergeSort_pair {α : Type} (le : α → α → Bool) (a b : α) :
    List.mergeSort [a, b] le = if le a b then [a, b] else [b, a] := by
  rw [List.mergeSort]
  simp [List.splitInTwo, List.splitAt, List.splitAt.go, List.merge]

/-- C5, counterexample. Two vendors with equal totals whose first
appearance order is descending by name: the report renders them in
first-appearance order (`Hp` before `Cisco`), not ascending by canonical
vendor name as the claim states. -/
theorem vendor_tie_name_order_c5_counterexample :
    ¬ (sorted_vendors
        [⟨"Hp", "m2", "p2", "2", "a2", 5⟩, ⟨"Cisco", "m1", "p1", "1", "a1", 5⟩]).Pairwise
      (fun x y => y.2.1 ≤ x.2.1 ∧ (x.2.1 = y.2.1 → pyStrLe x.1 y.1)) := by
  have h1 : vendor_data
      [⟨"Hp", "m2", "p2", "2", "a2", 5⟩, ⟨"Cisco", "m1", "p1", "1", "a1", 5⟩]
      = [("Hp", (5 : ℚ), [⟨"m2", "p2", "2", 5, "a2"⟩]),
         ("Cisco", (5 : ℚ), [⟨"m1", "p1", "1", 5, "a1"⟩])] := rfl
  have h2 : sorted_vendors
      [⟨"Hp", "m2", "p2", "2", "a2", 5⟩, ⟨"Cisco", "m1", "p1", "1", "a1", 5⟩]
      = [("Hp", (5 : ℚ), [⟨"m2", "p2", "2", 5, "a2"⟩]),
         ("Cisco", (5 : ℚ), [⟨"m1", "p1", "1", 5, "a1"⟩])] := by
    rw [sorted_vendors, h1, mergeSort_pair, if_pos]
    exact decide_eq_true (by norm_num)
  rw [h2]
  intro h
  rcases List.pairwise_cons.mp h with ⟨hrel, -⟩
  have := (hrel _ (List.mem_singleton.mpr rfl)).2 rfl
  have hf : pyStrLe "Hp" "Cisco" = false := by decide
  rw [hf] at this
  exact Bool.false_ne_true this

/-- C5, amended. In both reports, within a year the vendor groups appear
in non-ascending (descending) order of total cost; vendors with equal totals
appear in their first-appearance (dict-insertion) order — i.e. the sort is
stable — not in ascending canonical-name order. -/
theorem vendor_order_stable_c5 (recs : List SRec) (yrecs : List YRec)
    (a b : String × ℚ × List ItemInfo) (c d : String × ℚ) :
    (sorted_vendors recs).Pairwise (fun x y => y.2.1 ≤ x.2.1)
    ∧ ([a, b].Sublist (vendor_data recs) → b.2.1 ≤ a.2.1 →
        [a, b].Sublist (sorted_vendors recs))
    ∧ (sorted_vendors_y yrecs).Pairwise (fun x y => y.2 ≤ x.2)
    ∧ ([c, d].Sublist (vendor_totals yrecs) → d.2 ≤ c.2 →
        [c, d].Sublist (sorted_vendors_y yrecs)) := by
  have transS : ∀ x y z : String × ℚ × List ItemInfo,
      (fun a b => decide (b.2.1 ≤ a.2.1)) x y → (fun a b => decide (b.2.1 ≤ a.2.1)) y z →
      (fun a b => decide (b.2.1 ≤ a.2.1)) x z := by
    intro x y z hxy hyz
    simp only [decide_eq_true_eq] at hxy hyz ⊢
    exact le_trans hyz hxy
  have totalS : ∀ x y : String × ℚ × List ItemInfo,
      ((fun a b => decide (b.2.1 ≤ a.2.1)) x y
        || (fun a b => decide (b.2.1 ≤ a.2.1)) y x) := by
    intro x y
    simpa using le_total y.2.1 x.2.1
  have transY : ∀ x y z : String × ℚ,
      (fun a b => decide (b.2 ≤ a.2)) x y → (fun a b => decide (b.2 ≤ a.2)) y z →
      (fun a b => decide (b.2 ≤ a.2)) x z := by
    intro x y z hxy hyz
    simp only [decide_eq_true_eq] at hxy hyz ⊢
    exact le_trans hyz hxy
  have totalY : ∀ x y : String × ℚ,
      ((fun a b => decide (b.2 ≤ a.2)) x y || (fun a b => decide (b.2 ≤ a.2)) y x) := by
    intro x y
    simpa using le_total y.2 x.2
  refine ⟨?_, ?_, ?_, ?_⟩
  · exact ((List.sorted_mergeSort transS totalS _).imp (fun h => of_decide_eq_true h))
  · intro hsub hle
    exact List.pair_sublist_mergeSort transS totalS (decide_eq_true hle) hsub
  · exact ((List.sorted_mergeSort transY totalY _).imp (fun h => of_decide_eq_true h))
  · intro hsub hle
    exact List.pair_sublist_mergeSort transY totalY (decide_eq_true hle) hsub

/-- Witness for C5 (amended): the tied pair of the counterexample input is
kept in first-appearance order by the rendering sort. -/
theorem vendor_order_stable_c5_witness :
    [("Hp", (5 : ℚ), [(⟨"m2", "p2", "2", 5, "a2"⟩ : ItemInfo)]),
     ("Cisco", (5 : ℚ), [⟨"m1", "p1", "1", 5, "a1"⟩])].Sublist
      (sorted_vendors
        [⟨"Hp", "m2", "p2", "2", "a2", 5⟩, ⟨"Cisco", "m1", "p1", "1", "a1", 5⟩]) := by
  have h1 : vendor_data
      [⟨"Hp", "m2", "p2", "2", "a2", 5⟩, ⟨"Cisco", "m1", "p1", "1", "a1", 5⟩]
      = [("Hp", (5 : ℚ), [⟨"m2", "p2", "2", 5, "a2"⟩]),
         ("Cisco", (5 : ℚ), [⟨"m1", "p1", "1", 5, "a1"⟩])] := rfl
  refine (vendor_order_stable_c5
      [⟨"Hp", "m2", "p2", "2", "a2", 5⟩, ⟨"Cisco", "m1", "p1", "1", "a1", 5⟩] []
      ("Hp", (5 : ℚ), [⟨"m2", "p2", "2", 5, "a2"⟩])
      ("Cisco", (5 : ℚ), [⟨"m1", "p1", "1", 5, "a1"⟩])
      ("x", 0) ("y", 0)).2.1 ?_ (le_refl _)
  rw [h1]

theorem truncate45_length_le (m : List Char) : (truncate45 m).length ≤ 45 := by
  by_cases h : 45 < m.length
  · simp [truncate45, h, List.length_take]
  · simp [truncate45, h]
    omega

/-- C7. Every rendered drill-down label is at most 45 characters long,
counting the appended ellipsis and any prepended application-number prefix
(this covers the state/year report, whose labels are `truncate45` alone, and
the organization-history report's `renderLabel`); when prefixing would leave
10 or fewer usable characters, the bare (truncated) model name is truncated
instead. -/
theorem label_truncation_bound_c7 (model appNum : List Char) :
    (renderLabel model appNum).length ≤ 45
    ∧ (truncate45 model).length ≤ 45
    ∧ (¬('(' ∈ model ∧ ')' ∈ model) →
        45 < (appInfoOf appNum ++ truncate45 model).length →
        (45 : ℤ) - ((appInfoOf appNum).length : ℤ) - 3 ≤ 10 →
        renderLabel model appNum = (truncate45 model).take 42 ++ ['.', '.', '.']) := by
  refine ⟨?_, truncate45_length_le model, ?_⟩
  · rw [renderLabel]
    by_cases hp : '(' ∈ model ∧ ')' ∈ model
    · simp only [if_pos hp]
      exact truncate45_length_le model
    · simp only [if_neg hp]
      by_cases hlong : 45 < (appInfoOf appNum ++ truncate45 model).length
      · simp only [if_pos hlong]
        by_cases hsp : 10 < (45 : ℤ) - ((appInfoOf appNum).length : ℤ) - 3
        · simp only [if_pos hsp]
          simp [List.length_append, List.length_take]
          omega
        · simp only [if_neg hsp]
          simp [List.length_append, List.length_take]
      · simp only [if_neg hlong]
        omega
  · intro hp hlong hsp
    rw [renderLabel]
    simp only [if_neg hp, if_pos hlong, if_neg (not_lt.mpr (by omega : (45 : ℤ)
      - ((appInfoOf appNum).length : ℤ) - 3 ≤ 10))]

/-- Witness for C7: a 25-digit application number leaves fewer than 10 usable
characters, so the bare model name is truncated. -/
theorem label_truncation_bound_c7_witness :
    (renderLabel "SWITCH MODEL X".data "1234567890123456789012345".data).length ≤ 45
    ∧ renderLabel "SWITCH MODEL X".data "1234567890123456789012345".data
        = (truncate45 "SWITCH MODEL X".data).take 42 ++ ['.', '.', '.'] :=
  ⟨(label_truncation_bound_c7 "SWITCH MODEL X".data
      "1234567890123456789012345".data).1,
   (label_truncation_bound_c7 "SWITCH MODEL X".data
      "1234567890123456789012345".data).2.2 (by decide) (by decide) (by decide)⟩

/-- C6, counterexample. In the state/year report, the organization
`"School X"` (total 0, shown under `school_threshold = 0`) has no line item
reaching the SKU threshold 100000, and the code renders *no* row beneath its
summary line — no placeholder exists at the organization level, refuting the
claim for the state/year report. -/
theorem org_drilldown_sentinel_c6_counterexample :
    yDrillOk (generate_summary_rows
      [⟨"Cisco", "School X", none, "mdl", "5", "prod"⟩] 0 100000) = false := by
  have hc : yCost ⟨"Cisco", "School X", none, "mdl", "5", "prod"⟩ = 0 := by
    simp [yCost, pyFloat_zero_lit]
  simp [generate_summary_rows, sorted_vendors_y, vendor_totals, total_funding,
    school_vendor_totals, school_vendor_items, shownSchools, svtFor, sviFor,
    svtFor.go, sviFor.go, sviFor.go2, yVendorBlock, ySchoolBlock, pctOf,
    vendor_counts, countFor, bumpQ, bumpNested, bumpItems, itemOfY, hc,
    yDrillOk, List.mergeSort_singleton]

/-- C6, amended. In the organization-history report every vendor group
produces at least one row beneath its summary line (its qualifying items, or
the `(no single line items over ...)` sentinel).  In the state/year report
the sentinel exists only at the *vendor* level: a vendor none of whose
organizations reaches the school threshold gets a `(No schools above ...)`
placeholder row, but an organization shown under a vendor whose items all
fall below the SKU threshold is rendered with no drill-down rows and no
placeholder (see the counterexample). -/
theorem vendor_sentinel_rows_c6 (thr : ℚ) (items : List ItemInfo)
    (recs : List YRec) (schoolThr skuThr : ℚ) (e : String × ℚ) :
    schoolSubRows thr items ≠ []
    ∧ (shownSchools recs schoolThr e.1 = [] →
        YRow.noSchools ⟨schoolThr, 0, true⟩ ∈ yVendorBlock recs schoolThr skuThr e) := by
  constructor
  · rw [schoolSubRows]
    by_cases h : (items.filter (fun it => decide (thr ≤ it.cost))).isEmpty
    · simp [h]
    · simp only [h, Bool.false_eq_true, if_false, ne_eq, List.map_eq_nil_iff]
      intro hnil
      have hlen : (items.filter (fun it => decide (thr ≤ it.cost))).length = 0 := by
        rw [← @List.length_mergeSort _ (fun a b => decide (b.cost ≤ a.cost)), hnil]
        rfl
      rw [List.isEmpty_iff] at h
      exact h (List.length_eq_zero.mp hlen)
  · intro h
    simp [yVendorBlock, h]

/-- Witness for C6 (amended): a vendor with no qualifying school gets the
sentinel; a threshold with no qualifying items yields the item sentinel. -/
theorem vendor_sentinel_rows_c6_witness :
    schoolSubRows 100000 [⟨"mdl", "prod", "1", 5, "app"⟩] ≠ []
    ∧ YRow.noSchools ⟨100000, 0, true⟩ ∈ yVendorBlock [] 100000 5 ("Cisco", 0) :=
  ⟨(vendor_sentinel_rows_c6 100000 [⟨"mdl", "prod", "1", 5, "app"⟩]
      [] 100000 5 ("Cisco", 0)).1,
   (vendor_sentinel_rows_c6 100000 [⟨"mdl", "prod", "1", 5, "app"⟩]
      [] 100000 5 ("Cisco", 0)).2
      (by simp [shownSchools, svtFor, svtFor.go, school_vendor_totals])⟩

/-- C9, counterexample. The organization-history report renders vendor
totals with `${total:,.0f}` — zero decimal places — so a report containing
any vendor line violates the claimed two-decimal rule for vendor totals. -/
theorem money_format_c9_counterexample :
    ¬ (∀ row ∈ schoolReportRows [⟨"Cisco", "m", "p", "1", "a", 5⟩] 100000,
        sRowFmtClaim row = true) := by
  intro h
  have hmem : SRow.vendorLine "Cisco" ⟨5, 0, true⟩
      ∈ schoolReportRows [⟨"Cisco", "m", "p", "1", "a", 5⟩] 100000 := by
    have hno : ¬ ((100000 : ℚ) ≤ 5) := by norm_num
    simp [schoolReportRows, sorted_vendors, vendor_data, vdStep, itemOfS,
      List.mergeSort_singleton, schoolVendorRows, schoolSubRows, hno]
  have := h _ hmem
  simp [sRowFmtClaim] at this

/-- C9, amended. Every money value carries a thousands separator; grand
totals render with two decimal places in both reports, and vendor totals do
so in the state/year report, but the organization-history report renders
vendor totals with zero decimals; organization totals and per-line-item
costs render with zero decimals. -/
theorem money_format_c9 (recs : List SRec) (thr : ℚ) (yrecs : List YRec)
    (sT kT : ℚ) (row : SRow) (yrow : YRow) :
    (row ∈ schoolReportRows recs thr → sRowFmt row = true)
    ∧ (yrow ∈ generate_summary_rows yrecs sT kT → yRowFmt yrow = true) := by
  constructor
  · intro hmem
    rw [schoolReportRows] at hmem
    rcases List.mem_cons.mp hmem with rfl | hmem
    · simp [sRowFmt]
    · rcases List.mem_flatMap.mp hmem with ⟨e, -, hmem⟩
      rw [schoolVendorRows] at hmem
      rcases List.mem_cons.mp hmem with rfl | hmem
      · simp [sRowFmt]
      · rcases List.mem_append.mp hmem with hmem | hmem
        · rw [schoolSubRows] at hmem
          by_cases hE : (e.2.2.filter (fun it => decide (thr ≤ it.cost))).isEmpty
          · simp only [hE, if_pos] at hmem
            rcases List.mem_singleton.mp hmem with rfl
            simp [sRowFmt]
          · simp only [hE, Bool.false_eq_true, if_false, List.mem_map] at hmem
            obtain ⟨it, -, rfl⟩ := hmem
            simp [sRowFmt]
        · rcases List.mem_singleton.mp hmem with rfl
          simp [sRowFmt]
  · intro hmem
    rw [generate_summary_rows] at hmem
    rcases List.mem_cons.mp hmem with rfl | hmem
    · simp [yRowFmt]
    · rcases List.mem_flatMap.mp hmem with ⟨e, -, hmem⟩
      rw [yVendorBlock] at hmem
      rcases List.mem_cons.mp hmem with rfl | hmem
      · simp [yRowFmt]
      · rcases List.mem_append.mp hmem with hmem | hmem
        · rcases List.mem_append.mp hmem with hmem | hmem
          · rcases List.mem_flatMap.mp hmem with ⟨p, -, hmem⟩
            rw [ySchoolBlock] at hmem
            rcases List.mem_cons.mp hmem with rfl | hmem
            · simp [yRowFmt]
            · rcases List.mem_append.mp hmem with hmem | hmem
              · rcases List.mem_map.mp hmem with ⟨it, -, rfl⟩
                simp [yRowFmt]
              · by_cases hE : (((sviFor yrecs e.1 p.1).mergeSort
                    (fun a b => decide (b.cost ≤ a.cost))).filter
                    (fun it => decide (kT ≤ it.cost))).isEmpty
                · simp [hE] at hmem
                · simp only [hE, Bool.false_eq_true, if_false] at hmem
                  rcases List.mem_singleton.mp hmem with rfl
                  simp [yRowFmt]
          · by_cases hE : (shownSchools yrecs sT e.1).isEmpty
            · simp only [hE, if_pos] at hmem
              rcases List.mem_singleton.mp hmem with rfl
              simp [yRowFmt]
            · simp [hE] at hmem
        · rcases List.mem_singleton.mp hmem with rfl
          simp [yRowFmt]

/-- Witness for C9 (amended): the grand-total rows of empty reports. -/
theorem money_format_c9_witness :
    sRowFmt (SRow.grandTotal ⟨0, 2, true⟩) = true
    ∧ yRowFmt (YRow.grandTotal ⟨0, 2, true⟩) = true :=
  ⟨(money_format_c9 [] 5 [] 5 5 (SRow.grandTotal ⟨0, 2, true⟩)
      (YRow.grandTotal ⟨0, 2, true⟩)).1 (by simp [schoolReportRows]),
   (money_format_c9 [] 5 [] 5 5 (SRow.grandTotal ⟨0, 2, true⟩)
      (YRow.grandTotal ⟨0, 2, true⟩)).2
      (by simp [generate_summary_rows, total_funding])⟩

/-- C10. A vendor's percentage share is `total / total_funding * 100`
only under the guard `total_funding > 0`, and 0 otherwise; in particular,
when every record's cost coerces to 0 the total funding is 0 and every
vendor line of the rendered summary carries percentage 0 — rendering never
divides by a zero total. -/
theorem percentage_guard_c10 (recs : List YRec) (sT kT : ℚ)
    (recs2 : List YRec) (t : ℚ) :
    ((∀ r ∈ recs, yCost r = 0) →
      total_funding recs = 0
      ∧ (∀ row ∈ generate_summary_rows recs sT kT,
          ∀ v m pct cnt, row = YRow.vendorLine v m pct cnt → pct = 0))
    ∧ (¬ 0 < total_funding recs2 → pctOf recs2 t = 0)
    ∧ (0 < total_funding recs2 → pctOf recs2 t = t / total_funding recs2 * 100) := by
  refine ⟨?_, ?_, ?_⟩
  · intro hz
    have htf : total_funding recs = 0 := by
      rw [total_funding_eq_sum]
      exact List.sum_eq_zero (by simpa using hz)
    refine ⟨htf, ?_⟩
    intro row hmem v m pct cnt hrow
    subst hrow
    rw [generate_summary_rows] at hmem
    rcases List.mem_cons.mp hmem with heq | hmem
    · exact absurd heq (by simp)
    · rcases List.mem_flatMap.mp hmem with ⟨e, -, hmem⟩
      rw [yVendorBlock] at hmem
      rcases List.mem_cons.mp hmem with heq | hmem
      · have hpct : pct = pctOf recs e.2 := by
          injection heq with h1 h2 h3 h4
        rw [hpct, pctOf, htf]
        simp
      · exfalso
        rcases List.mem_append.mp hmem with hmem | hmem
        · rcases List.mem_append.mp hmem with hmem | hmem
          · rcases List.mem_flatMap.mp hmem with ⟨p, -, hmem⟩
            rw [ySchoolBlock] at hmem
            rcases List.mem_cons.mp hmem with heq | hmem
            · exact absurd heq (by simp)
            · rcases List.mem_append.mp hmem with hmem | hmem
              · rcases List.mem_map.mp hmem with ⟨it, -, heq⟩
                exact absurd heq.symm (by simp)
              · split at hmem
                · simp at hmem
                · simp at hmem
          · by_cases hE : (shownSchools recs sT e.1).isEmpty
            · simp only [hE, if_pos] at hmem
              rcases List.mem_singleton.mp hmem with heq
              simp at heq
            · simp [hE] at hmem
        · rcases List.mem_singleton.mp hmem with heq
          simp at heq
  · intro h
    simp [pctOf, h]
  · intro h
    simp [pctOf, h]

/-- Witness for C10: a single record whose cost field is absent (coerced to
0) yields zero total funding and a zero percentage on its vendor line. -/
theorem percentage_guard_c10_witness :
    (total_funding [⟨"Cisco", "X", none, "m", "1", "p"⟩] = 0
      ∧ (∀ row ∈ generate_summary_rows [⟨"Cisco", "X", none, "m", "1", "p"⟩] 0 0,
          ∀ v m pct cnt, row = YRow.vendorLine v m pct cnt → pct = 0))
    ∧ pctOf [] 7 = 0 :=
  ⟨(percentage_guard_c10 [⟨"Cisco", "X", none, "m", "1", "p"⟩] 0 0 [] 7).1
      (by intro r hr
          rcases List.mem_singleton.mp hr with rfl
          simp [yCost, pyFloat_zero_lit]),
   (percentage_guard_c10 [⟨"Cisco", "X", none, "m", "1", "p"⟩] 0 0 [] 7).2.1
      (by simp [total_funding])⟩

theorem orgLookup_orgSetState (org st : String) (m : List (String × OrgInfo))
    (n : String) :
    orgLookup (orgSetState org st m) n =
      if org = n then some ⟨st, ysOf (orgLookup m n)⟩ else orgLookup m n := by
  induction m with
  | nil =>
    by_cases h : org = n <;> simp [orgSetState, orgLookup, h, ysOf]
  | cons hd tl ih =>
    obtain ⟨k, info⟩ := hd
    by_cases hk : k = org
    · subst hk
      by_cases hn : k = n
      · subst hn
        simp [orgSetState, orgLookup, ysOf]
      · simp [orgSetState, orgLookup, hn]
    · simp only [orgSetState, if_neg hk, orgLookup]
      by_cases hn : k = n
      · subst hn
        have : org ≠ k := fun he => hk he.symm
        simp [orgLookup, this]
      · simp [orgLookup, hn, ih]

theorem orgLookup_orgAddYear (org y : String) (m : List (String × OrgInfo))
    (n : String) :
    orgLookup (orgAddYear org y m) n =
      if org = n then
        some ⟨stOf (orgLookup m n), addYear (ysOf (orgLookup m n)) y⟩
      else orgLookup m n := by
  induction m with
  | nil =>
    by_cases h : org = n <;> simp [orgAddYear, orgLookup, h, stOf, ysOf, addYear]
  | cons hd tl ih =>
    obtain ⟨k, info⟩ := hd
    by_cases hk : k = org
    · subst hk
      by_cases hn : k = n
      · subst hn
        simp [orgAddYear, orgLookup, stOf, ysOf]
      · simp [orgAddYear, orgLookup, hn]
    · simp only [orgAddYear, if_neg hk, orgLookup]
      by_cases hn : k = n
      · subst hn
        have : org ≠ k := fun he => hk he.symm
        simp [orgLookup, this]
      · simp [orgLookup, hn, ih]

theorem orgLookup_orgStep (m : List (String × OrgInfo)) (r : FRec) (n : String) :
    orgLookup (orgStep m r) n = updOrg n (orgLookup m n) r := by
  rw [orgStep, updOrg]
  by_cases h0 : pyStrip r.organization_name = ""
  · simp [h0]
  · simp only [h0, if_neg h0, if_false]
    by_cases hn : pyStrip r.organization_name = n
    · by_cases h2 : r.funding_year = ""
      · by_cases h1 : pyStrip r.state = "" <;>
          simp [h1, h2, hn, orgLookup_orgSetState]
      · by_cases h1 : pyStrip r.state = "" <;>
          simp [h1, h2, hn, orgLookup_orgAddYear, orgLookup_orgSetState,
            stOf, ysOf]
    · by_cases h2 : r.funding_year = ""
      · by_cases h1 : pyStrip r.state = "" <;>
          simp [h1, h2, hn, orgLookup_orgSetState]
      · by_cases h1 : pyStrip r.state = "" <;>
          simp [h1, h2, hn, orgLookup_orgAddYear, orgLookup_orgSetState]

theorem orgLookup_foldl (data : List FRec) (m : List (String × OrgInfo)) (n : String) :
    orgLookup (data.foldl orgStep m) n = data.foldl (updOrg n) (orgLookup m n) := by
  induction data generalizing m with
  | nil => rfl
  | cons r rest ih =>
    simp only [List.foldl_cons, ih, orgLookup_orgStep]

theorem mem_addYear (ys : List String) (y y' : String) :
    y' ∈ addYear ys y ↔ y' ∈ ys ∨ y' = y := by
  by_cases h : y ∈ ys
  · simp only [addYear, if_pos h]
    constructor
    · exact Or.inl
    · rintro (hy | rfl)
      · exact hy
      · exact h
  · simp [addYear, h]

theorem nodup_addYear (ys : List String) (y : String) (h : ys.Nodup) :
    (addYear ys y).Nodup := by
  by_cases hm : y ∈ ys
  · simpa [addYear, hm] using h
  · simp [addYear, hm, List.nodup_append, h]

theorem stOf_updOrg (n : String) (hn : n ≠ "") (o : Option OrgInfo) (r : FRec) :
    stOf (updOrg n o r)
      = if pyStrip r.organization_name = n ∧ pyStrip r.state ≠ ""
        then pyStrip r.state else stOf o := by
  have hns : ¬ ("" = n) := fun he => hn he.symm
  rw [updOrg]
  by_cases h0 : pyStrip r.organization_name = ""
  · have h1 : pyStrip r.organization_name ≠ n := fun he => hn (he ▸ h0)
    simp [h0, h1, hns]
  · by_cases h1 : pyStrip r.organization_name = n
    · by_cases h2 : pyStrip r.state = "" <;> by_cases h3 : r.funding_year = "" <;>
        simp [h0, h1, h2, h3, stOf, ysOf, hn, hns]
    · simp [h0, h1]

theorem mem_ysOf_updOrg (n : String) (hn : n ≠ "") (o : Option OrgInfo) (r : FRec)
    (y' : String) :
    y' ∈ ysOf (updOrg n o r) ↔
      y' ∈ ysOf o ∨ (pyStrip r.organization_name = n ∧ y' = r.funding_year
        ∧ r.funding_year ≠ "") := by
  have hns : ¬ ("" = n) := fun he => hn he.symm
  rw [updOrg]
  by_cases h0 : pyStrip r.organization_name = ""
  · have h1 : pyStrip r.organization_name ≠ n := fun he => hn (he ▸ h0)
    simp [h0, h1, hns]
  · by_cases h1 : pyStrip r.organization_name = n
    · by_cases h2 : pyStrip r.state = "" <;> by_cases h3 : r.funding_year = "" <;>
        simp [h0, h1, h2, h3, ysOf, mem_addYear, hn, hns]
    · simp [h0, h1]

theorem nodup_ysOf_updOrg (n : String) (o : Option OrgInfo) (r : FRec)
    (h : (ysOf o).Nodup) : (ysOf (updOrg n o r)).Nodup := by
  rw [updOrg]
  by_cases h0 : pyStrip r.organization_name = ""
  · simpa [h0] using h
  · by_cases h1 : pyStrip r.organization_name = n
    · have hn : n ≠ "" := fun he => h0 (h1.trans he)
      by_cases h2 : pyStrip r.state = ""
      · by_cases h3 : r.funding_year = ""
        · simpa [h0, h1, h2, h3, hn] using h
        · simpa [h0, h1, h2, h3, ysOf, hn] using nodup_addYear _ _ h
      · by_cases h3 : r.funding_year = ""
        · simpa [h0, h1, h2, h3, ysOf, hn] using h
        · simpa [h0, h1, h2, h3, ysOf, hn] using nodup_addYear _ _ h
    · simpa [h0, h1] using h

theorem getLastD_cons (l : List String) (x d : String) :
    ((x :: l).getLast?).getD d = (l.getLast?).getD x := by
  cases l with
  | nil => rfl
  | cons y t =>
    rw [List.getLast?_cons_cons]
    cases hc : (y :: t).getLast? with
    | none => simp at hc
    | some z => rfl

theorem stOf_foldl_updOrg (data : List FRec) (n : String) (hn : n ≠ "")
    (o : Option OrgInfo) :
    stOf (data.foldl (updOrg n) o)
      = ((((data.filter (fun r => pyStrip r.organization_name = n)).map
          (fun r => pyStrip r.state)).filter (fun s => ¬ s = "")).getLast?).getD
        (stOf o) := by
  induction data generalizing o with
  | nil => rfl
  | cons r rest ih =>
    rw [List.foldl_cons, ih (updOrg n o r)]
    by_cases h1 : pyStrip r.organization_name = n
    · by_cases h2 : pyStrip r.state = ""
      · rw [stOf_updOrg n hn, if_neg (by simp [h2]),
            List.filter_cons_of_pos (by simp [h1]), List.map_cons,
            List.filter_cons_of_neg (by simp [h2])]
      · rw [stOf_updOrg n hn, if_pos ⟨h1, h2⟩,
            List.filter_cons_of_pos (by simp [h1]), List.map_cons,
            List.filter_cons_of_pos (by simp [h2]), getLastD_cons]
    · rw [stOf_updOrg n hn, if_neg (by simp [h1]),
          List.filter_cons_of_neg (by simp [h1])]

theorem mem_ysOf_foldl (data : List FRec) (n : String) (hn : n ≠ "")
    (o : Option OrgInfo) (y' : String) :
    y' ∈ ysOf (data.foldl (updOrg n) o) ↔
      y' ∈ ysOf o ∨ (y' ≠ "" ∧ ∃ r ∈ data,
        pyStrip r.organization_name = n ∧ r.funding_year = y') := by
  induction data generalizing o with
  | nil => simp
  | cons r rest ih =>
    rw [List.foldl_cons, ih (updOrg n o r), mem_ysOf_updOrg n hn]
    constructor
    · rintro ((hy | ⟨ho, rfl, hne⟩) | ⟨hne, s, hs, hos, hys⟩)
      · exact Or.inl hy
      · exact Or.inr ⟨hne, r, List.mem_cons_self r rest, ho, rfl⟩
      · exact Or.inr ⟨hne, s, List.mem_cons_of_mem r hs, hos, hys⟩
    · rintro (hy | ⟨hne, s, hs, hos, hys⟩)
      · exact Or.inl (Or.inl hy)
      · rcases List.mem_cons.mp hs with rfl | hs
        · exact Or.inl (Or.inr ⟨hos, hys.symm, hys ▸ hne⟩)
        · exact Or.inr ⟨hne, s, hs, hos, hys⟩

theorem nodup_ysOf_foldl (data : List FRec) (n : String) (o : Option OrgInfo)
    (h : (ysOf o).Nodup) : (ysOf (data.foldl (updOrg n) o)).Nodup := by
  induction data generalizing o with
  | nil => exact h
  | cons r rest ih =>
    exact ih _ (nodup_ysOf_updOrg n o r h)

theorem map_fst_orgSetState (org st : String) (m : List (String × OrgInfo)) :
    (orgSetState org st m).map Prod.fst =
      if org ∈ m.map Prod.fst then m.map Prod.fst else m.map Prod.fst ++ [org] := by
  induction m with
  | nil => simp [orgSetState]
  | cons hd tl ih =>
    obtain ⟨k, info⟩ := hd
    by_cases hk : k = org
    · subst hk
      simp [orgSetState]
    · have : org ≠ k := fun he => hk he.symm
      by_cases hm : org ∈ tl.map Prod.fst <;>
        simp [orgSetState, hk, this, hm, ih]

theorem map_fst_orgAddYear (org y : String) (m : List (String × OrgInfo)) :
    (orgAddYear org y m).map Prod.fst =
      if org ∈ m.map Prod.fst then m.map Prod.fst else m.map Prod.fst ++ [org] := by
  induction m with
  | nil => simp [orgAddYear]
  | cons hd tl ih =>
    obtain ⟨k, info⟩ := hd
    by_cases hk : k = org
    · subst hk
      simp [orgAddYear]
    · have : org ≠ k := fun he => hk he.symm
      by_cases hm : org ∈ tl.map Prod.fst <;>
        simp [orgAddYear, hk, this, hm, ih]

theorem mem_names_update (names : List String) (org x : String) :
    (x ∈ if org ∈ names then names else names ++ [org]) ↔ x ∈ names ∨ x = org := by
  by_cases hm : org ∈ names
  · simp only [hm, if_pos]
    constructor
    · exact Or.inl
    · rintro (hx | rfl)
      · exact hx
      · exact hm
  · simp [hm]

theorem nodup_names_update (names : List String) (org : String)
    (h : names.Nodup) : (if org ∈ names then names else names ++ [org]).Nodup := by
  by_cases hm : org ∈ names
  · simpa [hm] using h
  · simp [hm, List.nodup_append, h]

theorem mem_map_fst_orgStep (m : List (String × OrgInfo)) (r : FRec) (x : String) :
    x ∈ (orgStep m r).map Prod.fst ↔
      x ∈ m.map Prod.fst ∨ (pyStrip r.organization_name ≠ ""
        ∧ (pyStrip r.state ≠ "" ∨ r.funding_year ≠ "")
        ∧ x = pyStrip r.organization_name) := by
  rw [orgStep]
  by_cases h0 : pyStrip r.organization_name = ""
  · simp [h0]
  · simp only [h0, if_neg h0, if_false]
    by_cases h2 : r.funding_year = ""
    · by_cases h1 : pyStrip r.state = ""
      · simp [h1, h2]
      · rw [if_pos h2, if_neg h1, map_fst_orgSetState, mem_names_update]
        tauto
    · by_cases h1 : pyStrip r.state = ""
      · rw [if_neg h2, if_pos h1, map_fst_orgAddYear, mem_names_update]
        tauto
      · rw [if_neg h2, if_neg h1, map_fst_orgAddYear, map_fst_orgSetState,
            mem_names_update, mem_names_update]
        tauto

theorem nodup_map_fst_orgStep (m : List (String × OrgInfo)) (r : FRec)
    (h : (m.map Prod.fst).Nodup) : ((orgStep m r).map Prod.fst).Nodup := by
  rw [orgStep]
  by_cases h0 : pyStrip r.organization_name = ""
  · simpa [h0] using h
  · simp only [h0, if_neg h0, if_false]
    by_cases h2 : r.funding_year = ""
    · by_cases h1 : pyStrip r.state = ""
      · simpa [h1, h2] using h
      · rw [if_pos h2, if_neg h1, map_fst_orgSetState]
        exact nodup_names_update _ _ h
    · by_cases h1 : pyStrip r.state = ""
      · rw [if_neg h2, if_pos h1, map_fst_orgAddYear]
        exact nodup_names_update _ _ h
      · rw [if_neg h2, if_neg h1, map_fst_orgAddYear, map_fst_orgSetState]
        exact nodup_names_update _ _ (nodup_names_update _ _ h)

theorem mem_names_foldl (data : List FRec) (m : List (String × OrgInfo)) (x : String) :
    x ∈ (data.foldl orgStep m).map Prod.fst ↔
      x ∈ m.map Prod.fst ∨ (x ≠ "" ∧ ∃ r ∈ data, pyStrip r.organization_name = x
        ∧ (pyStrip r.state ≠ "" ∨ r.funding_year ≠ "")) := by
  induction data generalizing m with
  | nil => simp
  | cons r rest ih =>
    rw [List.foldl_cons, ih, mem_map_fst_orgStep]
    constructor
    · rintro ((hx | ⟨hne, hsy, rfl⟩) | ⟨hne, s, hs, hos, hsy⟩)
      · exact Or.inl hx
      · exact Or.inr ⟨hne, r, List.mem_cons_self r rest, rfl, hsy⟩
      · exact Or.inr ⟨hne, s, List.mem_cons_of_mem r hs, hos, hsy⟩
    · rintro (hx | ⟨hne, s, hs, hos, hsy⟩)
      · exact Or.inl (Or.inl hx)
      · rcases List.mem_cons.mp hs with rfl | hs
        · exact Or.inl (Or.inr ⟨hos ▸ hne, hsy, hos.symm⟩)
        · exact Or.inr ⟨hne, s, hs, hos, hsy⟩

theorem nodup_names_foldl (data : List FRec) (m : List (String × OrgInfo))
    (h : (m.map Prod.fst).Nodup) : ((data.foldl orgStep m).map Prod.fst).Nodup := by
  induction data generalizing m with
  | nil => exact h
  | cons r rest ih =>
    exact ih _ (nodup_map_fst_orgStep m r h)

/-- C8. `find_schools` deduplicates by (stripped) organization name —
the result names are exactly the distinct non-empty stripped names of the
records that carry a non-empty (stripped) state or a non-empty funding year
(only the guarded dict accesses create an entry), each once; per
organization it accumulates the set of distinct (non-empty) funding years
and the last-seen non-empty state; the full deduplicated set is sorted
case-insensitively ascending by organization name, and only after sorting
is the result truncated to the first `limit` entries. -/
theorem find_schools_dedup_sort_limit_c8 (data : List FRec) (limit : ℕ)
    (n y : String) :
    find_schools_results data limit = (find_schools_full data).take limit
    ∧ (find_schools_full data).Pairwise
        (fun a b => pyStrLe (pyUpper a.1) (pyUpper b.1))
    ∧ (find_schools_full data).Perm ((org_data data).map
        (fun p => (p.1, p.2.state, p.2.years.mergeSort pyStrLe)))
    ∧ ((org_data data).map Prod.fst).Nodup
    ∧ (n ∈ (org_data data).map Prod.fst ↔
        n ≠ "" ∧ ∃ r ∈ data, pyStrip r.organization_name = n
          ∧ (pyStrip r.state ≠ "" ∨ r.funding_year ≠ ""))
    ∧ (n ≠ "" → stOf (orgLookup (org_data data) n)
        = ((((data.filter (fun r => pyStrip r.organization_name = n)).map
            (fun r => pyStrip r.state)).filter (fun s => ¬ s = "")).getLast?).getD "")
    ∧ (n ≠ "" →
        (y ∈ ysOf (orgLookup (org_data data) n) ↔
          y ≠ "" ∧ ∃ r ∈ data, pyStrip r.organization_name = n ∧ r.funding_year = y)
        ∧ (ysOf (orgLookup (org_data data) n)).Nodup) := by
  refine ⟨rfl, ?_, ?_, ?_, ?_, ?_, ?_⟩
  · refine List.sorted_mergeSort ?_ ?_ _
    · intro a b c hab hbc
      exact pyStrLeL_trans _ _ _ hab hbc
    · intro a b
      exact pyStrLeL_total (pyUpper a.1).data (pyUpper b.1).data
  · exact List.mergeSort_perm _ _
  · exact nodup_names_foldl data [] (by simp)
  · simpa using mem_names_foldl data [] n
  · intro hn
    rw [org_data, orgLookup_foldl]
    simpa using stOf_foldl_updOrg data n hn none
  · intro hn
    rw [org_data, orgLookup_foldl]
    constructor
    · simpa [orgLookup, ysOf] using mem_ysOf_foldl data n hn none y
    · exact nodup_ysOf_foldl data n none (by simp [ysOf])

/-- Witness for C8: a single-record input, with the per-organization state
and year characterisations instantiated at the record's organization. -/
theorem find_schools_dedup_sort_limit_c8_witness :
    stOf (orgLookup (org_data [⟨"Beta", "TX", "2020"⟩]) "Beta")
      = (((([⟨"Beta", "TX", "2020"⟩] : List FRec).filter
          (fun r => pyStrip r.organization_name = "Beta")).map
          (fun r => pyStrip r.state)).filter (fun s => ¬ s = "")).getLast?.getD ""
    ∧ (("2020" ∈ ysOf (orgLookup (org_data [⟨"Beta", "TX", "2020"⟩]) "Beta")) ↔
        ("2020" : String) ≠ "" ∧ ∃ r ∈ ([⟨"Beta", "TX", "2020"⟩] : List FRec),
          pyStrip r.organization_name = "Beta" ∧ r.funding_year = "2020") :=
  ⟨(find_schools_dedup_sort_limit_c8 [⟨"Beta", "TX", "2020"⟩] 3 "Beta"
      "2020").2.2.2.2.2.1 (by decide),
   ((find_schools_dedup_sort_limit_c8 [⟨"Beta", "TX", "2020"⟩] 3 "Beta"
      "2020").2.2.2.2.2.2 (by decide)).1⟩

end ERate
